import Mathlib

/-!
Verification of the `vue-declassify` transform (src/operations/vue_object.ts).

The TypeScript code rewrites a class-style Vue component into an object-style
one.  We shallowly embed the relevant parts of the ts-morph syntax tree:

* `PropertyAssignment`, `PropertyDeclaration`, `ClassDeclaration`, `ImportDecl`
  model the input-side ts-morph nodes, keeping exactly the data the transform
  reads (names, raw expression texts, JSDoc comments, decorator information).
* `ONode` models the output-side `ts.factory` nodes that the transform builds
  (`createPropertyAssignment`, `createObjectLiteralExpression`,
  `createMethodDeclaration`, `createCallExpression`, ...).  The
  `printNode`-then-reparse step of `classToObject` is modelled by storing the
  built node structurally inside the new export statement, and the final
  `formatText()` (pure whitespace normalisation) is modelled as the identity.
* Throwing lookups (`getNameOrThrow`, `getTypeNodeOrThrow`,
  `getInitializerOrThrow`) are modelled with `Option`: `none` is a thrown
  exception that aborts the transform.

`vue_class.extract` and the import ledger (`imports.ts`) are not part of the
provided sources; they are modelled from the specification and marked as such.
-/

/-- Semantic classification of a property's type, the result of the
ts-morph `Type.isString`/`isNumber`/`isBoolean` tests used in
`classPropTypeToObjectPropType`. -/
inductive TypeKind where
  | string
  | number
  | boolean
  | other
deriving DecidableEq

/-- A JSDoc comment node: `comment` models `compilerNode.comment` (the inner
text, absent or possibly empty) and `fullText` models `getFullText()` (the
whole comment with its delimiters). -/
structure JSDocIR where
  comment : Option String
  fullText : String
deriving DecidableEq

/-- A `PropertyAssignment` (`key: value` inside an object literal):
`name` is the key text, `init` is the raw text of the value expression as
returned by `getInitializer()?.getText()` (`none` models a missing
initializer, on which `getInitializerOrThrow` throws). -/
structure PropertyAssignment where
  name : String
  init : Option String
deriving DecidableEq

/-- A class field (`PropertyDeclaration`).  `typeKind` is the semantic
classification of `getType()`; `typeNode` is `getTypeNode()?.getText()`;
`init` is `getInitializer()?.getText()`; `hasPropDecorator` and
`propOptions` record the `@Prop(...)` decorator and the property assignments
of its optional object-literal argument. -/
structure PropertyDeclaration where
  name : String
  typeKind : TypeKind
  typeNode : Option String
  init : Option String
  jsDocs : List JSDocIR
  hasPropDecorator : Bool
  propOptions : List PropertyAssignment
deriving DecidableEq

/-- A class declaration: `name` is `getName()` (`none` for an anonymous
default-exported class, on which `getNameOrThrow` throws),
`hasComponentDecorator` records the `@Component` decorator, and
`decoratorConfig` holds the property assignments of the decorator's
object-literal argument (empty for a bare `@Component`). -/
structure ClassDeclaration where
  name : Option String
  hasComponentDecorator : Bool
  decoratorConfig : List PropertyAssignment
  fields : List PropertyDeclaration
  jsDocs : List JSDocIR
deriving DecidableEq

/-- An import statement: module specifier, optional default binding and the
list of named bindings. -/
structure ImportDecl where
  moduleSpecifier : String
  defaultImport : Option String
  namedImports : List String
deriving DecidableEq

/-- Output-side syntax nodes built with `ts.factory`.
`propAssign comment name value` carries the synthetic leading comment text
attached by `createDocumentation` (`none` when no comment was attached);
`paVerbatim` is a `compilerNode` copied verbatim from the input tree;
`dataMethod name params body` is a method declaration whose body returns the
object literal with the given entries. -/
inductive ONode where
  | ident : String → ONode
  | stringLit : String → ONode
  | falseLit : ONode
  | objectLit : List ONode → ONode
  | propAssign : Option String → String → ONode → ONode
  | paVerbatim : PropertyAssignment → ONode
  | dataMethod : String → List String → List ONode → ONode
  | call : String → List ONode → ONode

/-- A top-level statement of the source file. -/
inductive Statement where
  | importDecl : ImportDecl → Statement
  | classDecl : ClassDeclaration → Statement
  | exportAssignment : Option String → ONode → Statement
  | other : String → Statement

/-- The source file: its ordered list of top-level statements. -/
structure SourceFile where
  statements : List Statement

/-! ## Import ledger (modelled from the spec; `imports.ts` is not in src/) -/

/-- Whether a statement is an import from `module`. -/
def isImportOf (module : String) : Statement → Bool
  | .importDecl i => i.moduleSpecifier == module
  | _ => false

/-- Whether a statement is an import from `module` carrying a default binding. -/
def isDefaultImportOf (module : String) : Statement → Bool
  | .importDecl i => i.moduleSpecifier == module && i.defaultImport.isSome
  | _ => false

/-- Whether a statement is an import from `module` carrying the named binding `n`. -/
def hasNamedBinding (module n : String) : Statement → Bool
  | .importDecl i => i.moduleSpecifier == module && i.namedImports.contains n
  | _ => false

/-- Rewrite the first import statement from `module` with `g`, leaving every
other statement unchanged. -/
def updateFirstImportOf (module : String) (g : ImportDecl → ImportDecl) :
    List Statement → List Statement
  | [] => []
  | st :: rest =>
    match st with
    | .importDecl i =>
      if i.moduleSpecifier == module then Statement.importDecl (g i) :: rest
      else st :: updateFirstImportOf module g rest
    | _ => st :: updateFirstImportOf module g rest

/-- The rewrite `ensure` applies to the first import of the module: add the
requested default binding only when no default binding for the module exists
anywhere in the file, and append the named bindings not yet present. -/
def ensureUpdate (hasDefault : Bool) (deflt : Option String)
    (missing : List String) (i : ImportDecl) : ImportDecl :=
  { i with
    defaultImport :=
      match deflt with
      | some d => if hasDefault then i.defaultImport else some d
      | none => i.defaultImport
    namedImports := i.namedImports ++ missing }

/-- Modelled from the spec: `imports.ensure(file, moduleName, {default?, named?})`
guarantees the file's import statements include the requested bindings from
`moduleName` without duplicating an existing default or named binding
(`imports.ts` is not among the provided sources). -/
def ensure (source : SourceFile) (module : String)
    (deflt : Option String) (named : List String) : SourceFile :=
  if source.statements.any (isImportOf module) then
    ⟨updateFirstImportOf module
      (ensureUpdate (source.statements.any (isDefaultImportOf module)) deflt
        (named.filter (fun n => !(source.statements.any (hasNamedBinding module n)))))
      source.statements⟩
  else
    ⟨Statement.importDecl ⟨module, deflt, named⟩ :: source.statements⟩

/-- Modelled from the spec: removal of all import statements sourced from the
two known decorator-convention modules (`imports.ts` is not among the
provided sources). -/
def stripDecoratorImports (source : SourceFile) : SourceFile :=
  ⟨source.statements.filter (fun st =>
    !(isImportOf "vue-class-component" st || isImportOf "vue-property-decorator" st))⟩

/-- Modelled from the spec: the import ledger's companion operation removes
all import statements sourced from the two known decorator-convention modules and
collapses them into a single default import of `Vue` from `vue`, added only if
no default import of `vue` already exists (`imports.ts` is not among the
provided sources). -/
def declassifyImports (source : SourceFile) : SourceFile :=
  ensure (stripDecoratorImports source) "vue" (some "Vue") []

/-! ## Class extraction (modelled from the spec; `vue_class.ts` is not in src/) -/

/-- The shape of one entry of `vue.props` consumed by `vue_object.ts`: the
field declaration plus the `default` and `required` property assignments
found in the `@Prop` decorator's object-literal argument. -/
structure VueProp where
  declaration : PropertyDeclaration
  default : Option PropertyAssignment
  required : Option PropertyAssignment
deriving DecidableEq

/-- The extraction result consumed by `classToObject`. -/
structure VueClass where
  declaration : ClassDeclaration
  decoratorProperties : List PropertyAssignment
  props : List VueProp
  data : List PropertyDeclaration
deriving DecidableEq

/-- The component class carried by a statement, if any. -/
def isComponentClass : Statement → Option ClassDeclaration
  | .classDecl c => if c.hasComponentDecorator then some c else none
  | _ => none

/-- The first decorated component class among the statements. -/
def firstComponentClass : List Statement → Option ClassDeclaration
  | [] => none
  | st :: rest =>
    match isComponentClass st with
    | some c => some c
    | none => firstComponentClass rest

/-- Modelled from the spec: build the `props` entry of the IR for one
`@Prop`-decorated field, extracting the `default` and `required` property
assignments from the decorator's object-literal argument. -/
def fieldToVueProp (fd : PropertyDeclaration) : VueProp :=
  { declaration := fd
    default := fd.propOptions.find? (fun pa => pa.name == "default")
    required := fd.propOptions.find? (fun pa => pa.name == "required") }

/-- Modelled from the spec: `vue_class.extract(file)` locates the first class
carrying the component decorator and partitions its fields into input fields
(`@Prop`-decorated) and state fields (initialized, undecorated); fields with
neither are silently skipped (`vue_class.ts` is not among the provided
sources). -/
def extract (source : SourceFile) : Option VueClass :=
  (firstComponentClass source.statements).map (fun c =>
    { declaration := c
      decoratorProperties := c.decoratorConfig
      props := (c.fields.filter (fun fd => fd.hasPropDecorator)).map fieldToVueProp
      data := c.fields.filter (fun fd => !fd.hasPropDecorator && fd.init.isSome) })

/-! ## The object synthesizer (embedding of `vue_object.ts`) -/

/-- The body of the synthetic leading comment built by `createDocumentation`:
each content line of the JSDoc comment re-prefixed with the continuation
marker; the whole is wrapped between the `/*`-side prefix and the closing
padding. -/
def renderDocLines (c : String) : String :=
  String.intercalate "\n" ((c.splitOn "\n").map (fun line => " * " ++ line))

/-- Embeds `createDocumentation`: the synthetic leading comment text attached
to the target node, `none` when the first JSDoc is absent or its comment text
is missing or empty (the code's `if (comment)` truthiness test). -/
def createDocumentation (docs : List JSDocIR) : Option String :=
  match docs with
  | [] => none
  | d :: _ =>
    match d.comment with
    | none => none
    | some c => if c = "" then none else some ("*\n" ++ renderDocLines c ++ "\n ")

/-- Embeds `classNameToPropName`: the `name: <class name>` property assignment;
`getNameOrThrow` (throwing on an anonymous class) is the `Option`. -/
def classNameToPropName (decl : ClassDeclaration) : Option ONode :=
  decl.name.map (fun n => ONode.propAssign none "name" (ONode.stringLit n))

/-- Embeds `classPropTypeToObjectPropType`: primitive types map to the
built-in wrapper identifiers; any other type ensures a named `PropType`
binding from `vue` and produces the `Object as PropType<T>` cast identifier,
throwing (`getTypeNodeOrThrow`) when the field has no type annotation. -/
def classPropTypeToObjectPropType (source : SourceFile) (prop : VueProp) :
    Option (SourceFile × ONode) :=
  match prop.declaration.typeKind with
  | .string => some (source, ONode.propAssign none "type" (ONode.ident "String"))
  | .number => some (source, ONode.propAssign none "type" (ONode.ident "Number"))
  | .boolean => some (source, ONode.propAssign none "type" (ONode.ident "Boolean"))
  | .other =>
    let source1 := ensure source "vue" none ["PropType"]
    match prop.declaration.typeNode with
    | none => none
    | some t =>
      some (source1,
        ONode.propAssign none "type" (ONode.ident ("Object as PropType<" ++ t ++ ">")))

/-- Embeds `classPropOptionsToObjectPropOptions`: when a `default` option was
supplied its initializer text is copied as `default` (throwing when the
initializer is missing); otherwise a supplied `required` option is copied
verbatim (`compilerNode`); otherwise `required: false` is synthesized. -/
def classPropOptionsToObjectPropOptions (prop : VueProp) : Option (List ONode) :=
  match prop.default with
  | some pa =>
    match pa.init with
    | none => none
    | some t => some [ONode.propAssign none "default" (ONode.ident t)]
  | none =>
    match prop.required with
    | some pa => some [ONode.paVerbatim pa]
    | none => some [ONode.propAssign none "required" ONode.falseLit]

/-- Embeds `classPropToObjectProp`: the per-field property assignment,
an object literal of the type entry followed by the option entries, with the
field's documentation attached as leading comment. -/
def classPropToObjectProp (source : SourceFile) (prop : VueProp) :
    Option (SourceFile × ONode) :=
  match classPropTypeToObjectPropType source prop with
  | none => none
  | some (s1, typeMember) =>
    match classPropOptionsToObjectPropOptions prop with
    | none => none
    | some opts =>
      some (s1,
        ONode.propAssign (createDocumentation prop.declaration.jsDocs)
          prop.declaration.name (ONode.objectLit (typeMember :: opts)))

/-- The `vue.props.map(prop => classPropToObjectProp(source, prop))` loop of
`classPropsToObjectProps`, threading the import side effects through the
source file. -/
def buildPropMembers : SourceFile → List VueProp → Option (SourceFile × List ONode)
  | s, [] => some (s, [])
  | s, p :: rest =>
    match classPropToObjectProp s p with
    | none => none
    | some (s1, m) =>
      match buildPropMembers s1 rest with
      | none => none
      | some (s2, ms) => some (s2, m :: ms)

/-- Embeds `classPropsToObjectProps`: the `props` property assignment holding
the object literal of per-field entries. -/
def classPropsToObjectProps (source : SourceFile) (props : List VueProp) :
    Option (SourceFile × ONode) :=
  (buildPropMembers source props).map (fun r =>
    (r.1, ONode.propAssign none "props" (ONode.objectLit r.2)))

/-- One entry of the object literal returned by the `data` method: the field's
initializer text (throwing when absent), wrapped in an `as` assertion against
the declared type text exactly when a type annotation was present, with the
field's documentation attached. -/
def dataEntry (d : PropertyDeclaration) : Option ONode :=
  match d.init with
  | none => none
  | some v =>
    let e :=
      match d.typeNode with
      | some t => v ++ " as " ++ t
      | none => v
    some (ONode.propAssign (createDocumentation d.jsDocs) d.name (ONode.ident e))

/-- The `for (const declaration of vue.data)` loop of `classDataToObjectData`. -/
def dataEntriesOf : List PropertyDeclaration → Option (List ONode)
  | [] => some []
  | d :: rest =>
    match dataEntry d with
    | none => none
    | some m =>
      match dataEntriesOf rest with
      | none => none
      | some ms => some (m :: ms)

/-- Embeds `classDataToObjectData`: the zero-parameter method named `data`
whose body returns the object literal of per-field entries. -/
def classDataToObjectData (data : List PropertyDeclaration) : Option ONode :=
  (dataEntriesOf data).map (fun ms => ONode.dataMethod "data" [] ms)

/-- Remove the first decorated component class (the `vue.declaration.remove()`
call; extraction located exactly that declaration). -/
def removeFirstComponentClass : List Statement → List Statement
  | [] => []
  | st :: rest =>
    if (isComponentClass st).isSome then rest
    else st :: removeFirstComponentClass rest

/-- The leading trivia of the new export statement: the full text of the
class's first JSDoc when one exists (the code's `if (documentation)`
truthiness test skips an empty text). -/
def classJsDocTrivia (docs : List JSDocIR) : Option String :=
  match docs with
  | [] => none
  | d :: _ => if d.fullText = "" then none else some d.fullText

/-- The `props` part of the output members: present only when there is at
least one input field (`if (vue.props.length > 0)`). -/
def propsPartOption (source : SourceFile) (props : List VueProp) :
    Option (SourceFile × List ONode) :=
  if props.isEmpty then some (source, [])
  else (classPropsToObjectProps source props).map (fun r => (r.1, [r.2]))

/-- The `data` part of the output members: present only when there is at
least one state field (`if (vue.data.length > 0)`). -/
def dataPartOption (data : List PropertyDeclaration) : Option (List ONode) :=
  if data.isEmpty then some []
  else (classDataToObjectData data).map (fun m => [m])

/-- Embeds `classToObject`: extract the component (returning the file
unchanged when none is found), assemble the object literal members in the
fixed order name, decorator-configuration entries (verbatim), props, data,
wrap them in a `Vue.extend` call, remove the class and append the new default
export carrying the class's documentation as leading trivia.  `formatText()`
is whitespace normalisation and is modelled as the identity. -/
def classToObject (source : SourceFile) : Option SourceFile :=
  match extract source with
  | none => some source
  | some vue =>
    match classNameToPropName vue.declaration with
    | none => none
    | some nameMember =>
      match propsPartOption source vue.props with
      | none => none
      | some (source1, propsPart) =>
        match dataPartOption vue.data with
        | none => none
        | some dataPart =>
          let members :=
            nameMember ::
              (vue.decoratorProperties.map ONode.paVerbatim ++ propsPart ++ dataPart)
          let component := ONode.call "Vue.extend" [ONode.objectLit members]
          some ⟨removeFirstComponentClass source1.statements ++
            [Statement.exportAssignment
              (classJsDocTrivia vue.declaration.jsDocs) component]⟩

/-! ## Theorems -/

/-- The output key under which an object-literal member is rendered. -/
def memberKey : ONode → String
  | .propAssign _ n _ => n
  | .paVerbatim pa => pa.name
  | .dataMethod n _ _ => n
  | _ => ""

/-- C1: for every input field, the synthesized prop descriptor contains
exactly one of `default` and `required`: a supplied `default` option is
copied verbatim as `default` (any `required` option is dropped); otherwise a
supplied `required` option is copied verbatim; otherwise `required: false` is
synthesized. -/
theorem classPropOptions_exactly_one (prop : VueProp) (l : List ONode)
    (h : classPropOptionsToObjectPropOptions prop = some l)
    (hd : ∀ pa ∈ prop.default, pa.name = "default")
    (hr : ∀ pa ∈ prop.required, pa.name = "required") :
    (l.countP (fun m => memberKey m == "default") +
      l.countP (fun m => memberKey m == "required") = 1) ∧
    (∀ pa ∈ prop.default, ∀ t ∈ pa.init,
      l = [ONode.propAssign none "default" (ONode.ident t)]) ∧
    (prop.default = none → ∀ pa ∈ prop.required, l = [ONode.paVerbatim pa]) ∧
    (prop.default = none → prop.required = none →
      l = [ONode.propAssign none "required" ONode.falseLit]) := by
  obtain ⟨decl, pdef, preq⟩ := prop
  dsimp only at h hd hr ⊢
  cases pdef with
  | some pa =>
    cases hinit : pa.init with
    | none => simp [classPropOptionsToObjectPropOptions, hinit] at h
    | some t =>
      simp only [classPropOptionsToObjectPropOptions, hinit, Option.some.injEq] at h
      subst h
      refine ⟨by simp [memberKey], ?_, ?_, ?_⟩
      · intro pa2 hpa2 t2 ht2
        rw [Option.mem_some_iff] at hpa2
        subst hpa2
        rw [hinit, Option.mem_some_iff] at ht2
        subst ht2
        rfl
      · intro hnone; exact absurd hnone (by simp)
      · intro hnone; exact absurd hnone (by simp)
  | none =>
    cases preq with
    | some pa =>
      simp only [classPropOptionsToObjectPropOptions, Option.some.injEq] at h
      subst h
      have hname : pa.name = "required" := hr pa rfl
      refine ⟨by simp [memberKey, hname], ?_, ?_, ?_⟩
      · intro pa2 hpa2; exact absurd hpa2 (by simp)
      · intro _ pa2 hpa2
        rw [Option.mem_some_iff] at hpa2
        subst hpa2
        rfl
      · intro _ hnone; exact absurd hnone (by simp)
    | none =>
      simp only [classPropOptionsToObjectPropOptions, Option.some.injEq] at h
      subst h
      refine ⟨by simp [memberKey], ?_, ?_, ?_⟩
      · intro pa2 hpa2; exact absurd hpa2 (by simp)
      · intro _ pa2 hpa2; exact absurd hpa2 (by simp)
      · intro _ _; rfl

/-- A concrete input field supplying both a `default` and a `required`
decorator option. -/
def propBothOptions : VueProp :=
  { declaration :=
      ⟨"onClick", TypeKind.other, some "() => void", none, [], true,
        [⟨"default", some "() => noop"⟩, ⟨"required", some "true"⟩]⟩
    default := some ⟨"default", some "() => noop"⟩
    required := some ⟨"required", some "true"⟩ }

theorem classPropOptions_exactly_one_witness :
    ([ONode.propAssign none "default" (ONode.ident "() => noop")].countP
        (fun m => memberKey m == "default") +
      [ONode.propAssign none "default" (ONode.ident "() => noop")].countP
        (fun m => memberKey m == "required") = 1) ∧
    [ONode.propAssign none "default" (ONode.ident "() => noop")] =
      [ONode.propAssign none "default" (ONode.ident "() => noop")] := by
  have h := classPropOptions_exactly_one propBothOptions
    [ONode.propAssign none "default" (ONode.ident "() => noop")] rfl
    (by intro pa hpa; simp [propBothOptions] at hpa; subst hpa; rfl)
    (by intro pa hpa; simp [propBothOptions] at hpa; subst hpa; rfl)
  exact ⟨h.1, h.2.1 ⟨"default", some "() => noop"⟩ rfl "() => noop" rfl⟩

/-- C3: if no decorated component class is found in the source file, the
transform is an identity: the file is returned unchanged and no error is
reported. -/
theorem classToObject_identity_of_no_component (source : SourceFile)
    (h : extract source = none) : classToObject source = some source := by
  unfold classToObject
  rw [h]

/-- A concrete file with no decorated component class. -/
def fileNoComponent : SourceFile :=
  ⟨[Statement.importDecl ⟨"vue", some "Vue", []⟩,
    Statement.other "const x = 1"]⟩

theorem classToObject_identity_of_no_component_witness :
    classToObject fileNoComponent = some fileNoComponent :=
  classToObject_identity_of_no_component fileNoComponent rfl

/-- A statement that is not an import from `m` is left unchanged by
`updateFirstImportOf m`, which then recurses on the tail. -/
theorem updateFirstImportOf_cons_skip (m : String) (g : ImportDecl → ImportDecl)
    (st : Statement) (rest : List Statement) (h : isImportOf m st = false) :
    updateFirstImportOf m g (st :: rest) = st :: updateFirstImportOf m g rest := by
  cases st with
  | importDecl i =>
    have hi : (i.moduleSpecifier == m) = false := by simpa [isImportOf] using h
    simp [updateFirstImportOf, hi]
  | classDecl c => simp [updateFirstImportOf]
  | exportAssignment t e => simp [updateFirstImportOf]
  | other s => simp [updateFirstImportOf]

/-- Rewriting the first import of a module with a rewrite `g` that keeps the
module and carries the named binding `n` makes the binding present, provided
some import of the module exists. -/
theorem updateFirstImportOf_any_hasNamed (m n : String)
    (g : ImportDecl → ImportDecl)
    (hg : ∀ i, i.moduleSpecifier = m →
      (g i).moduleSpecifier = m ∧ (g i).namedImports.contains n = true)
    (l : List Statement) (hmod : l.any (isImportOf m) = true) :
    (updateFirstImportOf m g l).any (hasNamedBinding m n) = true := by
  induction l with
  | nil => simp at hmod
  | cons st rest ih =>
    by_cases hst : isImportOf m st = true
    · cases st with
      | importDecl i =>
        have hi : i.moduleSpecifier = m := by simpa [isImportOf] using hst
        have hge := hg i hi
        have hmem : n ∈ (g i).namedImports := by simpa using hge.2
        have hred : updateFirstImportOf m g (Statement.importDecl i :: rest) =
            Statement.importDecl (g i) :: rest := by
          simp [updateFirstImportOf, hi]
        rw [hred, List.any_cons]
        have hhd : hasNamedBinding m n (Statement.importDecl (g i)) = true := by
          simp [hasNamedBinding, hge.1, hmem]
        rw [hhd, Bool.true_or]
      | classDecl c => simp [isImportOf] at hst
      | exportAssignment t e => simp [isImportOf] at hst
      | other s => simp [isImportOf] at hst
    · have hst' : isImportOf m st = false := by
        cases hv : isImportOf m st with
        | true => exact absurd hv hst
        | false => rfl
      have hrest : rest.any (isImportOf m) = true := by
        rw [List.any_cons, hst', Bool.false_or] at hmod
        exact hmod
      rw [updateFirstImportOf_cons_skip m g st rest hst', List.any_cons,
        ih hrest, Bool.or_true]

/-- Rewriting the first import of a module with a rewrite `g` that keeps the
module and preserves the named binding `n` keeps the binding present. -/
theorem updateFirstImportOf_any_hasNamed_preserve (m n : String)
    (g : ImportDecl → ImportDecl)
    (hg : ∀ i, i.moduleSpecifier = m →
      (g i).moduleSpecifier = m ∧
      (i.namedImports.contains n = true → (g i).namedImports.contains n = true))
    (l : List Statement) (h : l.any (hasNamedBinding m n) = true) :
    (updateFirstImportOf m g l).any (hasNamedBinding m n) = true := by
  induction l with
  | nil => simp at h
  | cons st rest ih =>
    rw [List.any_cons] at h
    cases hhd : hasNamedBinding m n st with
    | true =>
      cases st with
      | importDecl i =>
        have hi : i.moduleSpecifier = m := by
          have := hhd
          simp [hasNamedBinding] at this
          simpa using this.1
        have hcont : i.namedImports.contains n = true := by
          have := hhd
          simp [hasNamedBinding] at this
          simpa using this.2
        have hge := hg i hi
        have hmem : n ∈ (g i).namedImports := by simpa using hge.2 hcont
        have hred : updateFirstImportOf m g (Statement.importDecl i :: rest) =
            Statement.importDecl (g i) :: rest := by
          simp [updateFirstImportOf, hi]
        rw [hred, List.any_cons]
        have hhd2 : hasNamedBinding m n (Statement.importDecl (g i)) = true := by
          simp [hasNamedBinding, hge.1, hmem]
        rw [hhd2, Bool.true_or]
      | classDecl c => simp [hasNamedBinding] at hhd
      | exportAssignment t e => simp [hasNamedBinding] at hhd
      | other s => simp [hasNamedBinding] at hhd
    | false =>
      rw [hhd, Bool.false_or] at h
      by_cases hst : isImportOf m st = true
      · cases st with
        | importDecl i =>
          have hi : i.moduleSpecifier = m := by simpa [isImportOf] using hst
          have hred : updateFirstImportOf m g (Statement.importDecl i :: rest) =
              Statement.importDecl (g i) :: rest := by
            simp [updateFirstImportOf, hi]
          rw [hred, List.any_cons, h, Bool.or_true]
        | classDecl c => simp [isImportOf] at hst
        | exportAssignment t e => simp [isImportOf] at hst
        | other s => simp [isImportOf] at hst
      · have hst' : isImportOf m st = false := by
          cases hv : isImportOf m st with
          | true => exact absurd hv hst
          | false => rfl
        rw [updateFirstImportOf_cons_skip m g st rest hst', List.any_cons,
          ih h, Bool.or_true]

/-- After `ensure source m _ [n]`, an import of `m` carrying the named
binding `n` is present in the file. -/
theorem ensure_named_present (s : SourceFile) (m n : String) (deflt : Option String) :
    ((ensure s m deflt [n]).statements.any (hasNamedBinding m n)) = true := by
  unfold ensure
  by_cases hmod : s.statements.any (isImportOf m) = true
  · rw [if_pos hmod]
    by_cases hnb : s.statements.any (hasNamedBinding m n) = true
    · apply updateFirstImportOf_any_hasNamed_preserve m n _ _ _ hnb
      intro i hi
      refine ⟨hi, ?_⟩
      intro hcont
      have hmem : n ∈ i.namedImports := by simpa using hcont
      simp [ensureUpdate, List.mem_append, hmem]
    · have hany : s.statements.any (hasNamedBinding m n) = false := by
        cases hv : s.statements.any (hasNamedBinding m n) with
        | true => exact absurd hv hnb
        | false => rfl
      apply updateFirstImportOf_any_hasNamed m n _ _ _ hmod
      intro i hi
      refine ⟨hi, ?_⟩
      have hmiss : ([n].filter (fun x => !(s.statements.any (hasNamedBinding m x)))) = [n] := by
        simp [List.filter_cons, hany]
      simp [ensureUpdate, hmiss, List.mem_append]
  · rw [if_neg hmod]
    rw [List.any_cons]
    have hhd : hasNamedBinding m n (Statement.importDecl ⟨m, deflt, [n]⟩) = true := by
      simp [hasNamedBinding]
    rw [hhd, Bool.true_or]

/-- C2: for a declared type classified string/number/boolean the synthesized
`type` entry is the matching wrapper identifier and the file is untouched;
for every other declared type the `type` entry is `Object as PropType<T>`
with the declared type text `T` verbatim, and a named `PropType`
binding imported from `vue` is ensured in the file. -/
theorem classPropType_classification (source : SourceFile) (prop : VueProp) :
    (prop.declaration.typeKind = TypeKind.string →
      classPropTypeToObjectPropType source prop =
        some (source, ONode.propAssign none "type" (ONode.ident "String"))) ∧
    (prop.declaration.typeKind = TypeKind.number →
      classPropTypeToObjectPropType source prop =
        some (source, ONode.propAssign none "type" (ONode.ident "Number"))) ∧
    (prop.declaration.typeKind = TypeKind.boolean →
      classPropTypeToObjectPropType source prop =
        some (source, ONode.propAssign none "type" (ONode.ident "Boolean"))) ∧
    (∀ t, prop.declaration.typeKind = TypeKind.other →
      prop.declaration.typeNode = some t →
      classPropTypeToObjectPropType source prop =
        some (ensure source "vue" none ["PropType"],
          ONode.propAssign none "type"
            (ONode.ident ("Object as PropType<" ++ t ++ ">"))) ∧
      ((ensure source "vue" none ["PropType"]).statements.any
        (hasNamedBinding "vue" "PropType")) = true) := by
  refine ⟨?_, ?_, ?_, ?_⟩
  · intro hk; simp [classPropTypeToObjectPropType, hk]
  · intro hk; simp [classPropTypeToObjectPropType, hk]
  · intro hk; simp [classPropTypeToObjectPropType, hk]
  · intro t hk ht
    refine ⟨by simp [classPropTypeToObjectPropType, hk, ht], ?_⟩
    exact ensure_named_present source "vue" "PropType" none

/-- The empty source file. -/
def fileEmpty : SourceFile := ⟨[]⟩

/-- A concrete string-typed input field. -/
def propStringField : VueProp :=
  { declaration := ⟨"message", TypeKind.string, some "string", none, [], true, []⟩
    default := none
    required := none }

/-- A concrete input field with a non-primitive declared type. -/
def propOtherField : VueProp :=
  { declaration := ⟨"response", TypeKind.other, some "Response", none, [], true, []⟩
    default := none
    required := none }

theorem classPropType_classification_witness :
    classPropTypeToObjectPropType fileEmpty propStringField =
      some (fileEmpty, ONode.propAssign none "type" (ONode.ident "String")) ∧
    classPropTypeToObjectPropType fileEmpty propOtherField =
      some (ensure fileEmpty "vue" none ["PropType"],
        ONode.propAssign none "type"
          (ONode.ident ("Object as PropType<" ++ "Response" ++ ">"))) ∧
    ((ensure fileEmpty "vue" none ["PropType"]).statements.any
      (hasNamedBinding "vue" "PropType")) = true := by
  have h1 := (classPropType_classification fileEmpty propStringField).1 rfl
  have h2 := (classPropType_classification fileEmpty propOtherField).2.2.2 "Response" rfl rfl
  exact ⟨h1, h2.1, h2.2⟩

/-- C7: with at least one state field, the synthesizer builds a
zero-parameter method named `data` returning an object literal with one entry
per state field, whose value is the field's original initializer text,
wrapped in an `as` assertion against the declared type text exactly when the
field carried a type annotation. -/
theorem classDataToObjectData_shape (data : List PropertyDeclaration)
    (entries : List ONode)
    (hne : data ≠ [])
    (h : dataEntriesOf data = some entries) :
    classDataToObjectData data = some (ONode.dataMethod "data" [] entries) ∧
    List.Forall₂ (fun (d : PropertyDeclaration) (e : ONode) =>
      ∃ v, d.init = some v ∧
        (d.typeNode = none →
          e = ONode.propAssign (createDocumentation d.jsDocs) d.name (ONode.ident v)) ∧
        (∀ t, d.typeNode = some t →
          e = ONode.propAssign (createDocumentation d.jsDocs) d.name
                (ONode.ident (v ++ " as " ++ t)))) data entries := by
  constructor
  · simp [classDataToObjectData, h]
  · clear hne
    induction data generalizing entries with
    | nil =>
      simp [dataEntriesOf] at h
      subst h
      exact List.Forall₂.nil
    | cons d rest ih =>
      unfold dataEntriesOf at h
      cases hde : dataEntry d with
      | none => rw [hde] at h; exact absurd h (by simp)
      | some m =>
        rw [hde] at h
        cases hrest : dataEntriesOf rest with
        | none => rw [hrest] at h; exact absurd h (by simp)
        | some ms =>
          rw [hrest] at h
          have hcons : entries = m :: ms := by injection h with h1; exact h1.symm
          subst hcons
          refine List.Forall₂.cons ?_ (ih ms hrest)
          unfold dataEntry at hde
          cases hinit : d.init with
          | none => rw [hinit] at hde; exact absurd hde (by simp)
          | some v =>
            rw [hinit] at hde
            refine ⟨v, rfl, ?_, ?_⟩
            · intro hT
              rw [hT] at hde
              injection hde with h2
              exact h2.symm
            · intro t hT
              rw [hT] at hde
              injection hde with h2
              exact h2.symm

/-- A concrete annotated state field. -/
def dataFieldX : PropertyDeclaration :=
  ⟨"x", TypeKind.number, some "number", some "0", [], false, []⟩

/-- A concrete unannotated state field. -/
def dataFieldY : PropertyDeclaration :=
  ⟨"y", TypeKind.other, none, some "getDefault()", [], false, []⟩

theorem classDataToObjectData_shape_witness :
    classDataToObjectData [dataFieldX, dataFieldY] =
      some (ONode.dataMethod "data" []
        [ONode.propAssign none "x" (ONode.ident ("0" ++ " as " ++ "number")),
         ONode.propAssign none "y" (ONode.ident "getDefault()")]) :=
  (classDataToObjectData_shape [dataFieldX, dataFieldY]
    [ONode.propAssign none "x" (ONode.ident ("0" ++ " as " ++ "number")),
     ONode.propAssign none "y" (ONode.ident "getDefault()")]
    (by simp) rfl).1

/-- Successful run of `classToObject`: with the extraction result, the name
member, the props part and the data part all available, the output file is
the input with the class removed and the default export of the `Vue.extend`
call appended, whose single object-literal argument lists the members in the
fixed order name, decorator configuration, props, data. -/
theorem classToObject_eq_of (source : SourceFile) (vue : VueClass)
    (nameMember : ONode) (s1 : SourceFile) (propsPart dataPart : List ONode)
    (h1 : extract source = some vue)
    (h2 : classNameToPropName vue.declaration = some nameMember)
    (h3 : propsPartOption source vue.props = some (s1, propsPart))
    (h4 : dataPartOption vue.data = some dataPart) :
    classToObject source =
      some ⟨removeFirstComponentClass s1.statements ++
        [Statement.exportAssignment (classJsDocTrivia vue.declaration.jsDocs)
          (ONode.call "Vue.extend"
            [ONode.objectLit (nameMember ::
              (vue.decoratorProperties.map ONode.paVerbatim ++ propsPart ++ dataPart))])]⟩ := by
  simp only [classToObject, h1, h2, h3, h4]

/-- C5: the synthesized replacement is a call to `Vue.extend` with a single
object-literal argument whose entries appear in the fixed order: name,
decorator-configuration entries (verbatim, original order), props (only when
there is at least one input field), data (only when there is at least one
state field). -/
theorem classToObject_member_order (source : SourceFile) (vue : VueClass)
    (nameMember : ONode) (s1 : SourceFile) (propsPart dataPart : List ONode)
    (h1 : extract source = some vue)
    (h2 : classNameToPropName vue.declaration = some nameMember)
    (h3 : propsPartOption source vue.props = some (s1, propsPart))
    (h4 : dataPartOption vue.data = some dataPart) :
    classToObject source =
      some ⟨removeFirstComponentClass s1.statements ++
        [Statement.exportAssignment (classJsDocTrivia vue.declaration.jsDocs)
          (ONode.call "Vue.extend"
            [ONode.objectLit (nameMember ::
              (vue.decoratorProperties.map ONode.paVerbatim ++ propsPart ++ dataPart))])]⟩ ∧
    (∀ n, vue.declaration.name = some n →
      nameMember = ONode.propAssign none "name" (ONode.stringLit n)) ∧
    (vue.props = [] → propsPart = []) ∧
    (∀ s2 ms, vue.props ≠ [] → buildPropMembers source vue.props = some (s2, ms) →
      propsPart = [ONode.propAssign none "props" (ONode.objectLit ms)]) ∧
    (vue.data = [] → dataPart = []) ∧
    (∀ ms, vue.data ≠ [] → dataEntriesOf vue.data = some ms →
      dataPart = [ONode.dataMethod "data" [] ms]) := by
  refine ⟨classToObject_eq_of source vue nameMember s1 propsPart dataPart h1 h2 h3 h4,
    ?_, ?_, ?_, ?_, ?_⟩
  · intro n hn
    rw [classNameToPropName, hn] at h2
    injection h2 with h'
    exact h'.symm
  · intro hp
    rw [hp] at h3
    have hred : propsPartOption source ([] : List VueProp) = some (source, []) := rfl
    rw [hred] at h3
    injection h3 with h'
    injection h' with hA hB
    exact hB.symm
  · intro s2 ms hne hb
    simp only [propsPartOption, classPropsToObjectProps, hb] at h3
    rw [if_neg (by simpa using hne)] at h3
    simp only [Option.map_some', Option.some.injEq] at h3
    have := congrArg Prod.snd h3
    simpa using this.symm
  · intro hd
    rw [hd] at h4
    have hred : dataPartOption ([] : List PropertyDeclaration) = some [] := rfl
    rw [hred] at h4
    injection h4 with h'
    exact h'.symm
  · intro ms hne hm
    simp only [dataPartOption, classDataToObjectData, hm] at h4
    rw [if_neg (by simpa using hne)] at h4
    simp only [Option.map_some', Option.some.injEq] at h4
    exact h4.symm

/-- A concrete `@Prop`-decorated string field. -/
def c5Field1 : PropertyDeclaration :=
  ⟨"message", TypeKind.string, some "string", none, [], true, []⟩

/-- A concrete annotated state field. -/
def c5Field2 : PropertyDeclaration :=
  ⟨"x", TypeKind.number, some "number", some "0", [], false, []⟩

/-- A concrete decorated class with configuration, one input field and one
state field. -/
def c5Class : ClassDeclaration :=
  ⟨some "Widget", true, [⟨"components", some "otherComponents"⟩],
    [c5Field1, c5Field2], []⟩

/-- A concrete file holding only the decorated class. -/
def c5Input : SourceFile := ⟨[Statement.classDecl c5Class]⟩

/-- The extraction result for `c5Input`. -/
def c5Vue : VueClass :=
  { declaration := c5Class
    decoratorProperties := c5Class.decoratorConfig
    props := [fieldToVueProp c5Field1]
    data := [c5Field2] }

theorem classToObject_member_order_witness :
    classToObject c5Input =
      some ⟨[Statement.exportAssignment none
        (ONode.call "Vue.extend"
          [ONode.objectLit
            [ONode.propAssign none "name" (ONode.stringLit "Widget"),
             ONode.paVerbatim ⟨"components", some "otherComponents"⟩,
             ONode.propAssign none "props" (ONode.objectLit
               [ONode.propAssign none "message" (ONode.objectLit
                 [ONode.propAssign none "type" (ONode.ident "String"),
                  ONode.propAssign none "required" ONode.falseLit])]),
             ONode.dataMethod "data" []
               [ONode.propAssign none "x" (ONode.ident "0 as number")]]])]⟩ :=
  (classToObject_member_order c5Input c5Vue
    (ONode.propAssign none "name" (ONode.stringLit "Widget")) c5Input
    [ONode.propAssign none "props" (ONode.objectLit
      [ONode.propAssign none "message" (ONode.objectLit
        [ONode.propAssign none "type" (ONode.ident "String"),
         ONode.propAssign none "required" ONode.falseLit])])]
    [ONode.dataMethod "data" []
      [ONode.propAssign none "x" (ONode.ident "0 as number")]]
    rfl rfl rfl rfl).1

/-- The synthetic leading comment carried by an output property assignment. -/
def leadingComment : ONode → Option String
  | .propAssign c _ _ => c
  | _ => none

/-- The leading trivia carried by an export statement. -/
def exportTrivia : Statement → Option String
  | .exportAssignment t _ => t
  | _ => none

/-- C9: a field's documentation is reattached as the leading block comment of
the generated property, rebuilt line-by-line with each content line
re-prefixed with the comment continuation marker; and a class's leading
documentation is reattached as the leading trivia of the new default-export
statement. -/
theorem documentation_reattached :
    (∀ (s s1 : SourceFile) (prop : VueProp) (m : ONode) (c : String)
        (d : JSDocIR) (rest : List JSDocIR),
      prop.declaration.jsDocs = d :: rest → d.comment = some c → c ≠ "" →
      classPropToObjectProp s prop = some (s1, m) →
      leadingComment m =
        some ("*\n" ++ String.intercalate "\n"
          ((c.splitOn "\n").map (fun line => " * " ++ line)) ++ "\n ")) ∧
    (∀ (source out : SourceFile) (vue : VueClass) (d : JSDocIR)
        (rest : List JSDocIR),
      extract source = some vue →
      vue.declaration.jsDocs = d :: rest → d.fullText ≠ "" →
      classToObject source = some out →
      out.statements.getLast?.map exportTrivia = some (some d.fullText)) := by
  constructor
  · intro s s1 prop m c d rest hdocs hcomment hne h
    cases ht : classPropTypeToObjectPropType s prop with
    | none => simp [classPropToObjectProp, ht] at h
    | some r =>
      obtain ⟨sA, tm⟩ := r
      cases ho : classPropOptionsToObjectPropOptions prop with
      | none => simp [classPropToObjectProp, ht, ho] at h
      | some opts =>
        simp only [classPropToObjectProp, ht, ho, Option.some.injEq] at h
        have hm : m = ONode.propAssign (createDocumentation prop.declaration.jsDocs)
            prop.declaration.name (ONode.objectLit (tm :: opts)) := by
          have := congrArg Prod.snd h
          simpa using this.symm
        rw [hm]
        simp [leadingComment, createDocumentation, hdocs, hcomment, hne, renderDocLines]
  · intro source out vue d rest h1 hdocs hne h
    cases h2 : classNameToPropName vue.declaration with
    | none => simp [classToObject, h1, h2] at h
    | some nm =>
      cases h3 : propsPartOption source vue.props with
      | none => simp [classToObject, h1, h2, h3] at h
      | some r =>
        obtain ⟨s1, pp⟩ := r
        cases h4 : dataPartOption vue.data with
        | none => simp [classToObject, h1, h2, h3, h4] at h
        | some dp =>
          have heq := classToObject_eq_of source vue nm s1 pp dp h1 h2 h3 h4
          rw [heq] at h
          injection h with h'
          rw [← h']
          simp [List.getLast?_concat, exportTrivia, classJsDocTrivia, hdocs, hne]

/-- A concrete documented `@Prop`-decorated field. -/
def c9PropField : PropertyDeclaration :=
  ⟨"message", TypeKind.string, some "string", none,
    [⟨some "Hello doc", "/** Hello doc */"⟩], true, []⟩

/-- The input-field IR for `c9PropField`. -/
def c9Prop : VueProp := ⟨c9PropField, none, none⟩

/-- A concrete decorated class carrying a leading documentation comment. -/
def c9Class : ClassDeclaration :=
  ⟨some "Widget", true, [], [], [⟨some "Class doc", "/** Class doc */"⟩]⟩

/-- A concrete file holding only `c9Class`. -/
def c9Input : SourceFile := ⟨[Statement.classDecl c9Class]⟩

/-- The extraction result for `c9Input`. -/
def c9Vue : VueClass := ⟨c9Class, [], [], []⟩

/-- The output of transforming `c9Input`. -/
def c9Out : SourceFile :=
  ⟨[Statement.exportAssignment (some "/** Class doc */")
    (ONode.call "Vue.extend"
      [ONode.objectLit [ONode.propAssign none "name" (ONode.stringLit "Widget")]])]⟩

theorem documentation_reattached_witness :
    leadingComment (ONode.propAssign (createDocumentation c9Prop.declaration.jsDocs)
        "message"
        (ONode.objectLit [ONode.propAssign none "type" (ONode.ident "String"),
          ONode.propAssign none "required" ONode.falseLit])) =
      some ("*\n" ++ String.intercalate "\n"
        ((("Hello doc").splitOn "\n").map (fun line => " * " ++ line)) ++ "\n ") ∧
    c9Out.statements.getLast?.map exportTrivia = some (some "/** Class doc */") :=
  ⟨documentation_reattached.1 fileEmpty fileEmpty c9Prop
      (ONode.propAssign (createDocumentation c9Prop.declaration.jsDocs) "message"
        (ONode.objectLit [ONode.propAssign none "type" (ONode.ident "String"),
          ONode.propAssign none "required" ONode.falseLit]))
      "Hello doc" ⟨some "Hello doc", "/** Hello doc */"⟩ [] rfl rfl (by decide) rfl,
   documentation_reattached.2 c9Input c9Out c9Vue
      ⟨some "Class doc", "/** Class doc */"⟩ [] rfl rfl (by decide) rfl⟩

/-- The type-tag conversion succeeds exactly when a non-primitive field
carries a type annotation. -/
theorem classPropTypeToObjectPropType_isSome (s : SourceFile) (p : VueProp) :
    (classPropTypeToObjectPropType s p).isSome = true ↔
      (p.declaration.typeKind = TypeKind.other →
        p.declaration.typeNode.isSome = true) := by
  cases htk : p.declaration.typeKind with
  | string => simp [classPropTypeToObjectPropType, htk]
  | number => simp [classPropTypeToObjectPropType, htk]
  | boolean => simp [classPropTypeToObjectPropType, htk]
  | other =>
    cases htn : p.declaration.typeNode with
    | none => simp [classPropTypeToObjectPropType, htk, htn]
    | some t => simp [classPropTypeToObjectPropType, htk, htn]

/-- The option conversion succeeds exactly when a supplied `default` option
has an initializer. -/
theorem classPropOptionsToObjectPropOptions_isSome (p : VueProp) :
    (classPropOptionsToObjectPropOptions p).isSome = true ↔
      (∀ pa ∈ p.default, pa.init.isSome = true) := by
  cases hd : p.default with
  | none =>
    cases hr : p.required with
    | none => simp [classPropOptionsToObjectPropOptions, hd, hr]
    | some pa => simp [classPropOptionsToObjectPropOptions, hd, hr]
  | some pa =>
    cases hi : pa.init with
    | none => simp [classPropOptionsToObjectPropOptions, hd, hi]
    | some t => simp [classPropOptionsToObjectPropOptions, hd, hi]

/-- Per-field success of the prop conversion. -/
theorem classPropToObjectProp_isSome (s : SourceFile) (p : VueProp) :
    (classPropToObjectProp s p).isSome = true ↔
      ((p.declaration.typeKind = TypeKind.other →
          p.declaration.typeNode.isSome = true) ∧
       (∀ pa ∈ p.default, pa.init.isSome = true)) := by
  rw [← classPropTypeToObjectPropType_isSome s p,
    ← classPropOptionsToObjectPropOptions_isSome p]
  cases ht : classPropTypeToObjectPropType s p with
  | none => simp [classPropToObjectProp, ht]
  | some r =>
    obtain ⟨sA, tm⟩ := r
    cases ho : classPropOptionsToObjectPropOptions p with
    | none => simp [classPropToObjectProp, ht, ho]
    | some opts => simp [classPropToObjectProp, ht, ho]

/-- The props loop succeeds exactly when every field satisfies the per-field
conditions (which do not depend on the threaded file state). -/
theorem buildPropMembers_isSome (props : List VueProp) : ∀ (s : SourceFile),
    (buildPropMembers s props).isSome = true ↔
      ∀ p ∈ props,
        ((p.declaration.typeKind = TypeKind.other →
            p.declaration.typeNode.isSome = true) ∧
         (∀ pa ∈ p.default, pa.init.isSome = true)) := by
  induction props with
  | nil => intro s; simp [buildPropMembers]
  | cons p rest ih =>
    intro s
    cases hh : classPropToObjectProp s p with
    | none =>
      simp only [buildPropMembers, hh]
      refine iff_of_false (by simp) ?_
      intro hall
      have : (classPropToObjectProp s p).isSome = true :=
        (classPropToObjectProp_isSome s p).mpr (hall p (List.mem_cons_self p rest))
      rw [hh] at this
      simp at this
    | some r =>
      obtain ⟨s1, m⟩ := r
      have hp : ((p.declaration.typeKind = TypeKind.other →
            p.declaration.typeNode.isSome = true) ∧
          (∀ pa ∈ p.default, pa.init.isSome = true)) :=
        (classPropToObjectProp_isSome s p).mp (by simp [hh])
      cases hb : buildPropMembers s1 rest with
      | none =>
        simp only [buildPropMembers, hh, hb]
        refine iff_of_false (by simp) ?_
        intro hall
        have : (buildPropMembers s1 rest).isSome = true :=
          (ih s1).mpr (fun q hq => hall q (List.mem_cons_of_mem p hq))
        rw [hb] at this
        simp at this
      | some r2 =>
        obtain ⟨s2, ms⟩ := r2
        have hrest : ∀ q ∈ rest,
            ((q.declaration.typeKind = TypeKind.other →
                q.declaration.typeNode.isSome = true) ∧
             (∀ pa ∈ q.default, pa.init.isSome = true)) :=
          (ih s1).mp (by simp [hb])
        simp only [buildPropMembers, hh, hb, Option.isSome_some, true_iff]
        intro q hq
        rcases List.mem_cons.mp hq with hq1 | hq2
        · rw [hq1]; exact hp
        · exact hrest q hq2

/-- The props part succeeds exactly when every input field satisfies the
per-field conditions. -/
theorem propsPartOption_isSome (s : SourceFile) (props : List VueProp) :
    (propsPartOption s props).isSome = true ↔
      ∀ p ∈ props,
        ((p.declaration.typeKind = TypeKind.other →
            p.declaration.typeNode.isSome = true) ∧
         (∀ pa ∈ p.default, pa.init.isSome = true)) := by
  cases hprops : props with
  | nil => simp [propsPartOption]
  | cons q qs =>
    rw [propsPartOption]
    rw [if_neg (by simp)]
    rw [classPropsToObjectProps]
    cases hb : buildPropMembers s (q :: qs) with
    | none =>
      refine iff_of_false (by simp) ?_
      intro hall
      have : (buildPropMembers s (q :: qs)).isSome = true :=
        (buildPropMembers_isSome (q :: qs) s).mpr hall
      rw [hb] at this
      simp at this
    | some r =>
      refine iff_of_true (by simp) ?_
      exact (buildPropMembers_isSome (q :: qs) s).mp (by simp [hb])

/-- One data entry succeeds exactly when the field has an initializer. -/
theorem dataEntry_isSome (d : PropertyDeclaration) :
    (dataEntry d).isSome = true ↔ d.init.isSome = true := by
  cases hi : d.init with
  | none => simp [dataEntry, hi]
  | some v => simp [dataEntry, hi]

/-- The data loop succeeds exactly when every state field has an
initializer. -/
theorem dataEntriesOf_isSome (data : List PropertyDeclaration) :
    (dataEntriesOf data).isSome = true ↔
      ∀ d ∈ data, d.init.isSome = true := by
  induction data with
  | nil => simp [dataEntriesOf]
  | cons d rest ih =>
    cases hd : dataEntry d with
    | none =>
      simp only [dataEntriesOf, hd]
      refine iff_of_false (by simp) ?_
      intro hall
      have : (dataEntry d).isSome = true :=
        (dataEntry_isSome d).mpr (hall d (List.mem_cons_self d rest))
      rw [hd] at this
      simp at this
    | some m =>
      have hdi : d.init.isSome = true := (dataEntry_isSome d).mp (by simp [hd])
      cases hrest : dataEntriesOf rest with
      | none =>
        simp only [dataEntriesOf, hd, hrest]
        refine iff_of_false (by simp) ?_
        intro hall
        have : (dataEntriesOf rest).isSome = true :=
          ih.mpr (fun q hq => hall q (List.mem_cons_of_mem d hq))
        rw [hrest] at this
        simp at this
      | some ms =>
        simp only [dataEntriesOf, hd, hrest, Option.isSome_some, true_iff]
        intro q hq
        rcases List.mem_cons.mp hq with hq1 | hq2
        · rw [hq1]; exact hdi
        · exact ih.mp (by simp [hrest]) q hq2

/-- The data part succeeds exactly when every state field has an
initializer. -/
theorem dataPartOption_isSome (data : List PropertyDeclaration) :
    (dataPartOption data).isSome = true ↔
      ∀ d ∈ data, d.init.isSome = true := by
  cases hdata : data with
  | nil => simp [dataPartOption]
  | cons d rest =>
    rw [dataPartOption, if_neg (by simp), classDataToObjectData]
    cases he : dataEntriesOf (d :: rest) with
    | none =>
      refine iff_of_false (by simp) ?_
      intro hall
      have : (dataEntriesOf (d :: rest)).isSome = true :=
        (dataEntriesOf_isSome (d :: rest)).mpr hall
      rw [he] at this
      simp at this
    | some ms =>
      refine iff_of_true (by simp) ?_
      exact (dataEntriesOf_isSome (d :: rest)).mp (by simp [he])

/-- C10: once a component has been extracted, the synthesis step throws no
exception if and only if the class has a name, every non-primitive input
field carries a type annotation, every supplied `default` option has an
initializer, and every state field has an initializer; when any of these
preconditions is violated the transform throws (returns no result) instead
of reporting a diagnostic. -/
theorem classToObject_total_iff (source : SourceFile) (vue : VueClass)
    (h : extract source = some vue) :
    (classToObject source).isSome = true ↔
      (vue.declaration.name.isSome = true ∧
       (∀ p ∈ vue.props, p.declaration.typeKind = TypeKind.other →
          p.declaration.typeNode.isSome = true) ∧
       (∀ p ∈ vue.props, ∀ pa ∈ p.default, pa.init.isSome = true) ∧
       (∀ d ∈ vue.data, d.init.isSome = true)) := by
  have key : (classToObject source).isSome =
      ((classNameToPropName vue.declaration).isSome &&
       ((propsPartOption source vue.props).isSome &&
        (dataPartOption vue.data).isSome)) := by
    cases h2 : classNameToPropName vue.declaration with
    | none => simp [classToObject, h, h2]
    | some nm =>
      cases h3 : propsPartOption source vue.props with
      | none => simp [classToObject, h, h2, h3]
      | some r =>
        obtain ⟨s1, pp⟩ := r
        cases h4 : dataPartOption vue.data with
        | none => simp [classToObject, h, h2, h3, h4]
        | some dp => simp [classToObject, h, h2, h3, h4]
  rw [key]
  simp only [Bool.and_eq_true]
  have hname : (classNameToPropName vue.declaration).isSome = true ↔
      vue.declaration.name.isSome = true := by
    cases hn : vue.declaration.name with
    | none => simp [classNameToPropName, hn]
    | some n => simp [classNameToPropName, hn]
  rw [hname, propsPartOption_isSome, dataPartOption_isSome]
  constructor
  · rintro ⟨h1, h2, h3⟩
    exact ⟨h1, fun p hp => (h2 p hp).1, fun p hp => (h2 p hp).2, h3⟩
  · rintro ⟨h1, h2, h3, h4⟩
    exact ⟨h1, fun p hp => ⟨h2 p hp, h3 p hp⟩, h4⟩

/-- A concrete class violating the preconditions: a non-primitive input
field without a type annotation. -/
def c10BadField : PropertyDeclaration :=
  ⟨"response", TypeKind.other, none, none, [], true, []⟩

/-- A concrete decorated class whose only field is `c10BadField`. -/
def c10BadClass : ClassDeclaration :=
  ⟨some "Widget", true, [], [c10BadField], []⟩

/-- A concrete file holding only `c10BadClass`. -/
def c10BadInput : SourceFile := ⟨[Statement.classDecl c10BadClass]⟩

/-- The extraction result for `c10BadInput`. -/
def c10BadVue : VueClass :=
  ⟨c10BadClass, [], [fieldToVueProp c10BadField], []⟩

theorem classToObject_total_iff_witness :
    (classToObject c5Input).isSome = true ∧
    (classToObject c10BadInput).isSome = false := by
  constructor
  · exact (classToObject_total_iff c5Input c5Vue rfl).mpr (by decide)
  · cases hv : (classToObject c10BadInput).isSome with
    | false => rfl
    | true =>
      have h2 := (classToObject_total_iff c10BadInput c10BadVue rfl).mp hv
      have hbad := h2.2.1 (fieldToVueProp c10BadField) (by decide) (by decide)
      exact absurd hbad (by decide)

/-- With a class name available, the synthesized name member is the
`name: <class name>` string-literal assignment. -/
theorem nameMember_eq (decl : ClassDeclaration) (n : String) (nameMember : ONode)
    (hn : decl.name = some n)
    (h2 : classNameToPropName decl = some nameMember) :
    nameMember = ONode.propAssign none "name" (ONode.stringLit n) := by
  rw [classNameToPropName, hn] at h2
  injection h2 with h'
  exact h'.symm

/-- With at least one input field, the props part is the single `props`
member wrapping the per-field entries. -/
theorem propsPart_eq_of_ne (source s1 : SourceFile) (props : List VueProp)
    (propsPart : List ONode) (hne : props ≠ [])
    (h3 : propsPartOption source props = some (s1, propsPart)) :
    ∃ ms, buildPropMembers source props = some (s1, ms) ∧
      propsPart = [ONode.propAssign none "props" (ONode.objectLit ms)] := by
  rw [propsPartOption, if_neg (by simpa using hne), classPropsToObjectProps] at h3
  cases hb : buildPropMembers source props with
  | none => rw [hb] at h3; exact absurd h3 (by simp)
  | some r =>
    obtain ⟨s2, ms⟩ := r
    rw [hb] at h3
    simp only [Option.map_some', Option.some.injEq] at h3
    have hs : s2 = s1 := congrArg Prod.fst h3
    have hp : propsPart = [ONode.propAssign none "props" (ONode.objectLit ms)] :=
      (congrArg Prod.snd h3).symm
    exact ⟨ms, by rw [hs], hp⟩

/-- With at least one state field, the data part is the single `data`
method. -/
theorem dataPart_eq_of_ne (data : List PropertyDeclaration)
    (dataPart : List ONode) (hne : data ≠ [])
    (h4 : dataPartOption data = some dataPart) :
    ∃ ms, dataEntriesOf data = some ms ∧
      dataPart = [ONode.dataMethod "data" [] ms] := by
  rw [dataPartOption, if_neg (by simpa using hne), classDataToObjectData] at h4
  cases he : dataEntriesOf data with
  | none => rw [he] at h4; exact absurd h4 (by simp)
  | some ms =>
    rw [he] at h4
    simp only [Option.map_some', Option.some.injEq] at h4
    exact ⟨ms, rfl, h4.symm⟩

/-- Whether an output member is a verbatim copy of a decorator-configuration
entry. -/
def isConfigMember : ONode → Bool
  | .paVerbatim _ => true
  | _ => false

/-- The ordering asserted by the claim: every synthesized member appears
after every configuration member, i.e. the member list is the configuration
block followed by the synthesized block. -/
def configEntriesFirst (members : List ONode) : Prop :=
  members = members.filter isConfigMember ++
    members.filter (fun m => !(isConfigMember m))

/-- A concrete decorated class whose configuration carries an explicit
`name` entry. -/
def c8Class : ClassDeclaration :=
  ⟨some "Widget", true, [⟨"name", some "Existing"⟩], [], []⟩

/-- A concrete file holding only `c8Class`. -/
def c8Input : SourceFile := ⟨[Statement.classDecl c8Class]⟩

/-- The members of the object literal produced for `c8Input`. -/
def c8Members : List ONode :=
  [ONode.propAssign none "name" (ONode.stringLit "Widget"),
   ONode.paVerbatim ⟨"name", some "Existing"⟩]

/-- C8 counterexample: with a decorator-configuration entry named `name`,
the synthesized entries are NOT all appended after the configuration
entries: the synthesized `name` entry is pushed first and precedes the
colliding configuration entry, refuting the claimed ordering (the doubled
key itself is real). -/
theorem c8_counterexample :
    classToObject c8Input =
      some ⟨[Statement.exportAssignment none
        (ONode.call "Vue.extend" [ONode.objectLit c8Members])]⟩ ∧
    ¬ configEntriesFirst c8Members := by
  constructor
  · rfl
  · intro hcf
    have hcf2 : c8Members =
        [ONode.paVerbatim ⟨"name", some "Existing"⟩,
         ONode.propAssign none "name" (ONode.stringLit "Widget")] := hcf
    have hcf3 : (ONode.propAssign none "name" (ONode.stringLit "Widget") ::
        [ONode.paVerbatim ⟨"name", some "Existing"⟩]) =
        [ONode.paVerbatim ⟨"name", some "Existing"⟩,
         ONode.propAssign none "name" (ONode.stringLit "Widget")] := hcf2
    injection hcf3 with hhd htl
    exact ONode.noConfusion hhd

/-- C8 amended: when the decorator configuration contains an entry named
`name`, `props`, or `data` (colliding with a synthesized entry), the
configuration entry is kept verbatim among the output members and the
output object literal carries at least two members under that key — a
doubled key; neither side is dropped.  (The synthesized `name` entry
precedes the configuration entries; synthesized `props`/`data` entries
follow them.) -/
theorem classToObject_collision_doubled_key (source : SourceFile)
    (vue : VueClass) (nameMember : ONode) (s1 : SourceFile)
    (propsPart dataPart : List ONode) (pa : PropertyAssignment) (n : String)
    (h1 : extract source = some vue)
    (hn : vue.declaration.name = some n)
    (h2 : classNameToPropName vue.declaration = some nameMember)
    (h3 : propsPartOption source vue.props = some (s1, propsPart))
    (h4 : dataPartOption vue.data = some dataPart)
    (hmem : pa ∈ vue.decoratorProperties)
    (hcol : pa.name = "name" ∨ (pa.name = "props" ∧ vue.props ≠ []) ∨
            (pa.name = "data" ∧ vue.data ≠ [])) :
    classToObject source =
      some ⟨removeFirstComponentClass s1.statements ++
        [Statement.exportAssignment (classJsDocTrivia vue.declaration.jsDocs)
          (ONode.call "Vue.extend"
            [ONode.objectLit (nameMember ::
              (vue.decoratorProperties.map ONode.paVerbatim ++ propsPart ++ dataPart))])]⟩ ∧
    ONode.paVerbatim pa ∈ (nameMember ::
      (vue.decoratorProperties.map ONode.paVerbatim ++ propsPart ++ dataPart)) ∧
    2 ≤ (nameMember ::
      (vue.decoratorProperties.map ONode.paVerbatim ++ propsPart ++ dataPart)).countP
        (fun m => memberKey m == pa.name) := by
  refine ⟨classToObject_eq_of source vue nameMember s1 propsPart dataPart h1 h2 h3 h4,
    ?_, ?_⟩
  · exact List.mem_cons_of_mem _
      (List.mem_append_left _ (List.mem_append_left _ (List.mem_map_of_mem _ hmem)))
  · have hnm := nameMember_eq vue.declaration n nameMember hn h2
    have hcfg : 0 < (vue.decoratorProperties.map ONode.paVerbatim).countP
        (fun m => memberKey m == pa.name) := by
      refine List.countP_pos_iff.mpr ⟨ONode.paVerbatim pa, List.mem_map_of_mem _ hmem, ?_⟩
      simp [memberKey]
    rw [List.countP_cons, List.countP_append, List.countP_append]
    rcases hcol with hc1 | ⟨hc2, hne2⟩ | ⟨hc3, hne3⟩
    · have hname : (memberKey nameMember == pa.name) = true := by
        rw [hnm, hc1]; rfl
      rw [hname, if_pos rfl]
      omega
    · obtain ⟨ms, hb, hpp⟩ := propsPart_eq_of_ne source s1 vue.props propsPart hne2 h3
      have hpc : 0 < propsPart.countP (fun m => memberKey m == pa.name) := by
        refine List.countP_pos_iff.mpr ⟨ONode.propAssign none "props" (ONode.objectLit ms),
          by rw [hpp]; exact List.mem_cons_self _ _, ?_⟩
        simp [memberKey, hc2]
      omega
    · obtain ⟨ms, he, hdp⟩ := dataPart_eq_of_ne vue.data dataPart hne3 h4
      have hdc : 0 < dataPart.countP (fun m => memberKey m == pa.name) := by
        refine List.countP_pos_iff.mpr ⟨ONode.dataMethod "data" [] ms,
          by rw [hdp]; exact List.mem_cons_self _ _, ?_⟩
        simp [memberKey, hc3]
      omega

theorem classToObject_collision_doubled_key_witness :
    classToObject c8Input =
      some ⟨[Statement.exportAssignment none
        (ONode.call "Vue.extend" [ONode.objectLit c8Members])]⟩ ∧
    ONode.paVerbatim ⟨"name", some "Existing"⟩ ∈ c8Members ∧
    2 ≤ c8Members.countP (fun m => memberKey m == "name") :=
  classToObject_collision_doubled_key c8Input
    ⟨c8Class, [⟨"name", some "Existing"⟩], [], []⟩
    (ONode.propAssign none "name" (ONode.stringLit "Widget")) c8Input [] []
    ⟨"name", some "Existing"⟩ "Widget" rfl rfl rfl rfl rfl
    (List.mem_cons_self _ _) (Or.inl rfl)

/-- The number of decorated component classes among the statements. -/
def componentClassCount (l : List Statement) : Nat :=
  l.countP (fun st => (isComponentClass st).isSome)

/-- No component class is found exactly when the count is zero. -/
theorem firstComponentClass_eq_none_iff (l : List Statement) :
    firstComponentClass l = none ↔ componentClassCount l = 0 := by
  induction l with
  | nil => simp [firstComponentClass, componentClassCount]
  | cons st rest ih =>
    cases hc : isComponentClass st with
    | some c =>
      refine iff_of_false (by simp [firstComponentClass, hc]) ?_
      simp [componentClassCount, List.countP_cons, hc]
    | none =>
      simp only [firstComponentClass, hc]
      rw [ih]
      simp [componentClassCount, List.countP_cons, hc]

/-- Removing the first component class from a file with at most one of them
leaves none. -/
theorem componentClassCount_removeFirst (l : List Statement)
    (hcount : componentClassCount l ≤ 1) :
    componentClassCount (removeFirstComponentClass l) = 0 := by
  induction l with
  | nil => rfl
  | cons st rest ih =>
    cases hc : (isComponentClass st).isSome with
    | true =>
      have hrw : removeFirstComponentClass (st :: rest) = rest := by
        simp [removeFirstComponentClass, hc]
      rw [hrw]
      have : componentClassCount (st :: rest) =
          componentClassCount rest + 1 := by
        simp [componentClassCount, List.countP_cons, hc]
      omega
    | false =>
      have hrw : removeFirstComponentClass (st :: rest) =
          st :: removeFirstComponentClass rest := by
        simp [removeFirstComponentClass, hc]
      rw [hrw]
      have h1 : componentClassCount (st :: rest) = componentClassCount rest := by
        simp [componentClassCount, List.countP_cons, hc]
      have h2 : componentClassCount (st :: removeFirstComponentClass rest) =
          componentClassCount (removeFirstComponentClass rest) := by
        simp [componentClassCount, List.countP_cons, hc]
      rw [h2, ih (by omega)]

/-- Rewriting an import statement never changes the component-class count. -/
theorem componentClassCount_updateFirstImportOf (m : String)
    (g : ImportDecl → ImportDecl) (l : List Statement) :
    componentClassCount (updateFirstImportOf m g l) = componentClassCount l := by
  induction l with
  | nil => rfl
  | cons st rest ih =>
    cases st with
    | importDecl i =>
      by_cases hi : i.moduleSpecifier = m
      · have hrw : updateFirstImportOf m g (Statement.importDecl i :: rest) =
            Statement.importDecl (g i) :: rest := by
          simp [updateFirstImportOf, hi]
        rw [hrw]
        simp [componentClassCount, List.countP_cons, isComponentClass]
      · have hskip : isImportOf m (Statement.importDecl i) = false := by
          simp [isImportOf, hi]
        rw [updateFirstImportOf_cons_skip m g _ rest hskip]
        simpa [componentClassCount, List.countP_cons, isComponentClass] using ih
    | classDecl c =>
      rw [updateFirstImportOf_cons_skip m g _ rest (by simp [isImportOf])]
      simpa [componentClassCount, List.countP_cons] using ih
    | exportAssignment t e =>
      rw [updateFirstImportOf_cons_skip m g _ rest (by simp [isImportOf])]
      simpa [componentClassCount, List.countP_cons, isComponentClass] using ih
    | other s =>
      rw [updateFirstImportOf_cons_skip m g _ rest (by simp [isImportOf])]
      simpa [componentClassCount, List.countP_cons, isComponentClass] using ih

/-- The import ledger never changes the component-class count. -/
theorem componentClassCount_ensure (s : SourceFile) (m : String)
    (deflt : Option String) (named : List String) :
    componentClassCount (ensure s m deflt named).statements =
      componentClassCount s.statements := by
  unfold ensure
  by_cases hmod : s.statements.any (isImportOf m) = true
  · rw [if_pos hmod]
    exact componentClassCount_updateFirstImportOf _ _ _
  · rw [if_neg hmod]
    simp [componentClassCount, List.countP_cons, isComponentClass]

/-- The type-tag conversion never changes the component-class count. -/
theorem componentClassCount_classPropType (s s1 : SourceFile) (p : VueProp)
    (m : ONode) (h : classPropTypeToObjectPropType s p = some (s1, m)) :
    componentClassCount s1.statements = componentClassCount s.statements := by
  cases htk : p.declaration.typeKind with
  | string =>
    simp only [classPropTypeToObjectPropType, htk, Option.some.injEq] at h
    have hs : s = s1 := congrArg Prod.fst h
    rw [← hs]
  | number =>
    simp only [classPropTypeToObjectPropType, htk, Option.some.injEq] at h
    have hs : s = s1 := congrArg Prod.fst h
    rw [← hs]
  | boolean =>
    simp only [classPropTypeToObjectPropType, htk, Option.some.injEq] at h
    have hs : s = s1 := congrArg Prod.fst h
    rw [← hs]
  | other =>
    cases htn : p.declaration.typeNode with
    | none => simp [classPropTypeToObjectPropType, htk, htn] at h
    | some t =>
      simp only [classPropTypeToObjectPropType, htk, htn, Option.some.injEq] at h
      have hs : ensure s "vue" none ["PropType"] = s1 := congrArg Prod.fst h
      rw [← hs]
      exact componentClassCount_ensure s "vue" none ["PropType"]

/-- The per-field prop conversion never changes the component-class count. -/
theorem componentClassCount_classPropToObjectProp (s s1 : SourceFile)
    (p : VueProp) (m : ONode) (h : classPropToObjectProp s p = some (s1, m)) :
    componentClassCount s1.statements = componentClassCount s.statements := by
  cases ht : classPropTypeToObjectPropType s p with
  | none => simp [classPropToObjectProp, ht] at h
  | some r =>
    obtain ⟨sA, tm⟩ := r
    cases ho : classPropOptionsToObjectPropOptions p with
    | none => simp [classPropToObjectProp, ht, ho] at h
    | some opts =>
      simp only [classPropToObjectProp, ht, ho, Option.some.injEq] at h
      have hs : sA = s1 := congrArg Prod.fst h
      rw [← hs]
      exact componentClassCount_classPropType s sA p tm ht

/-- The props loop never changes the component-class count. -/
theorem componentClassCount_buildPropMembers (props : List VueProp) :
    ∀ (s s1 : SourceFile) (ms : List ONode),
    buildPropMembers s props = some (s1, ms) →
    componentClassCount s1.statements = componentClassCount s.statements := by
  induction props with
  | nil =>
    intro s s1 ms h
    simp only [buildPropMembers, Option.some.injEq] at h
    have hs : s = s1 := congrArg Prod.fst h
    rw [← hs]
  | cons p rest ih =>
    intro s s1 ms h
    cases hh : classPropToObjectProp s p with
    | none => simp [buildPropMembers, hh] at h
    | some r =>
      obtain ⟨sA, m⟩ := r
      cases hb : buildPropMembers sA rest with
      | none => simp [buildPropMembers, hh, hb] at h
      | some r2 =>
        obtain ⟨sB, msB⟩ := r2
        simp only [buildPropMembers, hh, hb, Option.some.injEq] at h
        have hs : sB = s1 := congrArg Prod.fst h
        rw [← hs]
        rw [ih sA sB msB hb]
        exact componentClassCount_classPropToObjectProp s sA p m hh

/-- The props part never changes the component-class count. -/
theorem componentClassCount_propsPartOption (s s1 : SourceFile)
    (props : List VueProp) (propsPart : List ONode)
    (h : propsPartOption s props = some (s1, propsPart)) :
    componentClassCount s1.statements = componentClassCount s.statements := by
  by_cases he : props.isEmpty = true
  · rw [propsPartOption, if_pos he] at h
    injection h with h'
    have hs : s = s1 := congrArg Prod.fst h'
    rw [← hs]
  · rw [propsPartOption, if_neg he, classPropsToObjectProps] at h
    cases hb : buildPropMembers s props with
    | none => rw [hb] at h; exact absurd h (by simp)
    | some r =>
      obtain ⟨sA, ms⟩ := r
      rw [hb] at h
      simp only [Option.map_some', Option.some.injEq] at h
      have hs : sA = s1 := congrArg Prod.fst h
      rw [← hs]
      exact componentClassCount_buildPropMembers props s sA ms hb

/-- A concrete decorated class named `A`. -/
def c4ClassA : ClassDeclaration := ⟨some "A", true, [], [], []⟩

/-- A concrete decorated class named `B`. -/
def c4ClassB : ClassDeclaration := ⟨some "B", true, [], [], []⟩

/-- A concrete file holding two decorated classes. -/
def c4Input : SourceFile :=
  ⟨[Statement.classDecl c4ClassA, Statement.classDecl c4ClassB]⟩

/-- The export synthesized for class `A`. -/
def c4ExportA : Statement :=
  Statement.exportAssignment none (ONode.call "Vue.extend"
    [ONode.objectLit [ONode.propAssign none "name" (ONode.stringLit "A")]])

/-- The export synthesized for class `B`. -/
def c4ExportB : Statement :=
  Statement.exportAssignment none (ONode.call "Vue.extend"
    [ONode.objectLit [ONode.propAssign none "name" (ONode.stringLit "B")]])

/-- The output of transforming `c4Input` once. -/
def c4Once : SourceFile := ⟨[Statement.classDecl c4ClassB, c4ExportA]⟩

/-- The output of transforming `c4Once`. -/
def c4Twice : SourceFile := ⟨[c4ExportA, c4ExportB]⟩

/-- C4 counterexample: with two decorated classes in one file, the first
transform only converts the first class, so a second application converts
the remaining one and the output is not byte-identical — the transform is
not idempotent in general. -/
theorem c4_counterexample :
    classToObject c4Input = some c4Once ∧
    classToObject c4Once = some c4Twice ∧
    c4Twice ≠ c4Once := by
  refine ⟨rfl, rfl, ?_⟩
  intro h
  have h2 : (c4ExportA :: [c4ExportB]) =
      (Statement.classDecl c4ClassB :: [c4ExportA]) :=
    congrArg SourceFile.statements h
  injection h2 with hhd htl
  exact Statement.noConfusion hhd

/-- C4 amended: for a file containing at most one decorated class, the
transform is idempotent — transforming the converted output again yields it
byte-identically, because no decorated class remains to match. -/
theorem classToObject_idempotent_of_at_most_one (source out : SourceFile)
    (hcount : componentClassCount source.statements ≤ 1)
    (h : classToObject source = some out) :
    classToObject out = some out := by
  cases h1 : extract source with
  | none =>
    rw [classToObject, h1] at h
    injection h with h'
    rw [← h', classToObject, h1]
  | some vue =>
    cases h2 : classNameToPropName vue.declaration with
    | none => simp [classToObject, h1, h2] at h
    | some nm =>
      cases h3 : propsPartOption source vue.props with
      | none => simp [classToObject, h1, h2, h3] at h
      | some r =>
        obtain ⟨s1, pp⟩ := r
        cases h4 : dataPartOption vue.data with
        | none => simp [classToObject, h1, h2, h3, h4] at h
        | some dp =>
          have heq := classToObject_eq_of source vue nm s1 pp dp h1 h2 h3 h4
          rw [heq] at h
          injection h with h'
          have hs1 : componentClassCount s1.statements ≤ 1 := by
            rw [componentClassCount_propsPartOption source s1 vue.props pp h3]
            exact hcount
          have hrem : componentClassCount
              (removeFirstComponentClass s1.statements) = 0 :=
            componentClassCount_removeFirst s1.statements hs1
          have hout : componentClassCount out.statements = 0 := by
            rw [← h']
            show componentClassCount (removeFirstComponentClass s1.statements ++
              [Statement.exportAssignment (classJsDocTrivia vue.declaration.jsDocs)
                (ONode.call "Vue.extend" [ONode.objectLit (nm ::
                  (vue.decoratorProperties.map ONode.paVerbatim ++ pp ++ dp))])]) = 0
            rw [componentClassCount, List.countP_append]
            have : componentClassCount
                (removeFirstComponentClass s1.statements) = 0 := hrem
            rw [componentClassCount] at this
            rw [this]
            rfl
          have hfc : firstComponentClass out.statements = none :=
            (firstComponentClass_eq_none_iff out.statements).mpr hout
          have hextract : extract out = none := by
            rw [extract, hfc]
            rfl
          rw [classToObject, hextract]

/-- A concrete file holding exactly one decorated class. -/
def c4Single : SourceFile := ⟨[Statement.classDecl c4ClassA]⟩

theorem classToObject_idempotent_witness :
    classToObject (⟨[c4ExportA]⟩ : SourceFile) = some ⟨[c4ExportA]⟩ :=
  classToObject_idempotent_of_at_most_one c4Single ⟨[c4ExportA]⟩ (by decide) rfl

/-- The number of default imports of module `m` in the file. -/
def defaultImportCount (m : String) (s : SourceFile) : Nat :=
  s.statements.countP (isDefaultImportOf m)

/-- A default import of `m` is in particular an import of `m`. -/
theorem isImportOf_of_isDefaultImportOf (m : String) (st : Statement)
    (h : isDefaultImportOf m st = true) : isImportOf m st = true := by
  cases st with
  | importDecl i =>
    simp [isDefaultImportOf] at h
    simp [isImportOf, h.1]
  | classDecl c => simp [isDefaultImportOf] at h
  | exportAssignment t e => simp [isDefaultImportOf] at h
  | other s => simp [isDefaultImportOf] at h

/-- Rewriting the first import of `m` with a rewrite that does not change
whether an import is a default import preserves the count. -/
theorem countP_updateFirstImportOf (m : String) (g : ImportDecl → ImportDecl)
    (p : Statement → Bool)
    (hg : ∀ i, p (Statement.importDecl (g i)) = p (Statement.importDecl i))
    (l : List Statement) :
    (updateFirstImportOf m g l).countP p = l.countP p := by
  induction l with
  | nil => rfl
  | cons st rest ih =>
    cases st with
    | importDecl i =>
      by_cases hi : i.moduleSpecifier = m
      · have hrw : updateFirstImportOf m g (Statement.importDecl i :: rest) =
            Statement.importDecl (g i) :: rest := by
          simp [updateFirstImportOf, hi]
        rw [hrw, List.countP_cons, List.countP_cons, hg i]
      · rw [updateFirstImportOf_cons_skip m g _ rest (by simp [isImportOf, hi]),
          List.countP_cons, List.countP_cons, ih]
    | classDecl c =>
      rw [updateFirstImportOf_cons_skip m g _ rest (by simp [isImportOf]),
        List.countP_cons, List.countP_cons, ih]
    | exportAssignment t e =>
      rw [updateFirstImportOf_cons_skip m g _ rest (by simp [isImportOf]),
        List.countP_cons, List.countP_cons, ih]
    | other str =>
      rw [updateFirstImportOf_cons_skip m g _ rest (by simp [isImportOf]),
        List.countP_cons, List.countP_cons, ih]

/-- When no import of `vue` exists, `ensure` adds one fresh default import
of it. -/
theorem defaultImportCount_ensure_of_no_import (s : SourceFile)
    (named : List String)
    (hmod : s.statements.any (isImportOf "vue") = false) :
    defaultImportCount "vue" (ensure s "vue" (some "Vue") named) =
      defaultImportCount "vue" s + 1 := by
  rw [ensure, if_neg (by simp [hmod])]
  show (Statement.importDecl ⟨"vue", some "Vue", named⟩ ::
      s.statements).countP (isDefaultImportOf "vue") =
    s.statements.countP (isDefaultImportOf "vue") + 1
  rw [List.countP_cons]
  have : isDefaultImportOf "vue" (Statement.importDecl ⟨"vue", some "Vue", named⟩) = true := by
    simp [isDefaultImportOf]
  rw [this]
  simp

/-- When an import of `vue` exists and some default import of `vue` is
already present, `ensure` with a default request leaves the default-import
count unchanged. -/
theorem defaultImportCount_ensure_of_default (s : SourceFile)
    (hmod : s.statements.any (isImportOf "vue") = true)
    (hdef : s.statements.any (isDefaultImportOf "vue") = true) :
    defaultImportCount "vue" (ensure s "vue" (some "Vue") []) =
      defaultImportCount "vue" s := by
  rw [ensure, if_pos hmod, hdef]
  show (updateFirstImportOf "vue" _ s.statements).countP (isDefaultImportOf "vue") =
    s.statements.countP (isDefaultImportOf "vue")
  apply countP_updateFirstImportOf
  intro i
  simp [isDefaultImportOf, ensureUpdate]

/-- C6: if all imports of the input come from the two decorator-convention
modules, the collapsed output has exactly one default import of `vue`; and
if the input already has exactly one default import of `vue`, the output
still has exactly one (never a duplicate). -/
theorem declassifyImports_single_default (source : SourceFile) :
    ((∀ i : ImportDecl, Statement.importDecl i ∈ source.statements →
        i.moduleSpecifier = "vue-class-component" ∨
        i.moduleSpecifier = "vue-property-decorator") →
      defaultImportCount "vue" (declassifyImports source) = 1) ∧
    (defaultImportCount "vue" source = 1 →
      defaultImportCount "vue" (declassifyImports source) = 1) := by
  constructor
  · intro hall
    have hfalse : ∀ st ∈ (stripDecoratorImports source).statements,
        isImportOf "vue" st = false ∧ isDefaultImportOf "vue" st = false := by
      intro st hst
      rw [stripDecoratorImports] at hst
      have hmf := List.mem_filter.mp hst
      cases st with
      | importDecl i =>
        exfalso
        rcases hall i hmf.1 with hm | hm
        · have hcc : isImportOf "vue-class-component" (Statement.importDecl i) = true := by
            simp [isImportOf, hm]
          have := hmf.2
          rw [hcc] at this
          simp at this
        · have hpd : isImportOf "vue-property-decorator" (Statement.importDecl i) = true := by
            simp [isImportOf, hm]
          have := hmf.2
          rw [hpd] at this
          simp at this
      | classDecl c => exact ⟨rfl, rfl⟩
      | exportAssignment t e => exact ⟨rfl, rfl⟩
      | other str => exact ⟨rfl, rfl⟩
    have hany : (stripDecoratorImports source).statements.any (isImportOf "vue") = false := by
      cases hv : (stripDecoratorImports source).statements.any (isImportOf "vue") with
      | false => rfl
      | true =>
        obtain ⟨st, hst, hp⟩ := List.any_eq_true.mp hv
        rw [(hfalse st hst).1] at hp
        exact Bool.noConfusion hp
    have hcnt : defaultImportCount "vue" (stripDecoratorImports source) = 0 := by
      rw [defaultImportCount]
      refine List.countP_eq_zero.mpr ?_
      intro st hst
      simp [(hfalse st hst).2]
    rw [declassifyImports, defaultImportCount_ensure_of_no_import _ [] hany, hcnt]
  · intro hone
    have hkeep : ∀ st ∈ source.statements, isDefaultImportOf "vue" st = true →
        (!(isImportOf "vue-class-component" st ||
           isImportOf "vue-property-decorator" st)) = true := by
      intro st hst hd
      cases st with
      | importDecl i =>
        have hm : i.moduleSpecifier = "vue" := by
          simp [isDefaultImportOf] at hd
          exact hd.1
        simp [isImportOf, hm]
      | classDecl c => simp [isDefaultImportOf] at hd
      | exportAssignment t e => simp [isDefaultImportOf] at hd
      | other str => simp [isDefaultImportOf] at hd
    have hc : defaultImportCount "vue" (stripDecoratorImports source) = 1 := by
      rw [defaultImportCount, stripDecoratorImports]
      show (source.statements.filter _).countP (isDefaultImportOf "vue") = 1
      rw [List.countP_filter]
      rw [← hone]
      rw [defaultImportCount]
      apply List.countP_congr
      intro st hst
      cases hd : isDefaultImportOf "vue" st with
      | false => simp [hd]
      | true => simp [hd, hkeep st hst hd]
    have hex : ∃ st ∈ (stripDecoratorImports source).statements,
        isDefaultImportOf "vue" st = true := by
      refine List.countP_pos_iff.mp ?_
      rw [defaultImportCount] at hc
      omega
    obtain ⟨st, hst, hd⟩ := hex
    have hdef : (stripDecoratorImports source).statements.any
        (isDefaultImportOf "vue") = true :=
      List.any_eq_true.mpr ⟨st, hst, hd⟩
    have hmod : (stripDecoratorImports source).statements.any
        (isImportOf "vue") = true :=
      List.any_eq_true.mpr ⟨st, hst, isImportOf_of_isDefaultImportOf "vue" st hd⟩
    rw [declassifyImports, defaultImportCount_ensure_of_default _ hmod hdef, hc]

/-- A concrete file importing only from the two decorator-convention
modules (the repo test input). -/
def c6InputA : SourceFile :=
  ⟨[Statement.importDecl ⟨"vue-class-component", none, ["Component", "Vue"]⟩,
    Statement.importDecl ⟨"vue-property-decorator", none, ["Component", "Prop", "Vue"]⟩]⟩

/-- A concrete file already importing `vue` by default. -/
def c6InputB : SourceFile :=
  ⟨[Statement.importDecl ⟨"vue", some "Vue", []⟩]⟩

theorem declassifyImports_single_default_witness :
    defaultImportCount "vue" (declassifyImports c6InputA) = 1 ∧
    defaultImportCount "vue" (declassifyImports c6InputB) = 1 := by
  constructor
  · refine (declassifyImports_single_default c6InputA).1 ?_
    intro i hi
    simp only [c6InputA, List.mem_cons, List.not_mem_nil, or_false,
      Statement.importDecl.injEq] at hi
    rcases hi with h | h
    · subst h; left; rfl
    · subst h; right; rfl
  · exact (declassifyImports_single_default c6InputB).2 (by decide)
